import Mathlib

/-!
Shallow embedding of the incremental cascading evaluation engine of
`src/static/app.js` (py-calc-web client).

Conventions of the embedding:
* JS strings are `String`; JS string arrays are `List String`.
* An out-of-range JS array read yields `undefined`; we model reads that may
  be out of range with `l[i]?` (`Option`), so `undefined` is `none`.
* JS truthiness: for strings, falsy is exactly `""`; `s1 || s2` is `jsOr`.
  A JS array object is always truthy, regardless of its length.
* DOM text cells of the overlay are modelled as a `List String` (`display`),
  one entry per rendered row.
* The page `context` objects are variable-name-to-value mappings whose values
  are never inspected by the client code under study; we model a context as
  an association list from names to the serialized form of the value.
-/

namespace PyCalcWeb

/-- JS `a || b` for strings: `a` when non-empty (truthy), otherwise `b`. -/
def jsOr (a b : String) : String :=
  if a = "" then b else a

/-- JS `str.includes(pat)`: the pattern occurs contiguously in `s`. -/
def jsIncludes (s pat : String) : Bool :=
  decide (pat.data <:+: s.data)

/-- Split a character list at every occurrence of `sep`, keeping empty
pieces: the list-level core of JS `str.split(sep)` for a one-character
separator (splitting the empty string yields one empty piece, as in JS). -/
def splitListOn (sep : Char) (cs : List Char) : List (List Char) :=
  cs.foldr
    (fun c acc =>
      match acc with
      | curr :: rest => if c == sep then [] :: curr :: rest else (c :: curr) :: rest
      | [] => [])
    [[]]

/-- JS `str.split("\n")`, as used by the editor to turn its value into the
line array. -/
def jsSplitNewline (s : String) : List String :=
  (splitListOn '\n' s.data).map fun cs => String.mk cs

/-- JS `str.trim()`: strip leading and trailing whitespace. -/
def jsTrim (s : String) : String :=
  String.mk (((s.data.dropWhile Char.isWhitespace).reverse.dropWhile
    Char.isWhitespace).reverse)

/-- A variable context: name ↦ serialized value (values are opaque to the client). -/
abbrev Context := List (String × String)

/-- Model of `renderLines` (app.js 44-67): rebuilds the overlay, one row per line,
with the result cell of each row set to `latestResults[index] || ""`. -/
def renderLines (lines : List String) (latestResults : List String) : List String :=
  lines.mapIdx fun index _ => jsOr (latestResults.getD index "") ""

/-- Model of `updateResultsFrom` (app.js 69-81): for `i` from `startIndex` while
`i < results.length`, if row `i` exists its result cell becomes
`results[i] || ""`. Note the read is `results[i]`, the absolute row index,
not `results[i - startIndex]`. -/
def updateResultsFrom (startIndex : Nat) (results : List String)
    (rows : List String) : List String :=
  rows.mapIdx fun i cell =>
    if startIndex ≤ i ∧ i < results.length then jsOr (results.getD i "") "" else cell

/-- Model of `getChangedLineIndex` (app.js 83-91): scan `i` from `0` to
`max(lines.length, previousLines.length) - 1`; return the first `i` with
`lines[i] !== previousLines[i]` (out-of-range reads are `undefined`),
else `-1`. -/
def getChangedLineIndex (lines previousLines : List String) : Int :=
  match (List.range (max lines.length previousLines.length)).findIdx?
      (fun i => lines[i]? != previousLines[i]?) with
  | some i => (i : Int)
  | none => -1

/-- An Error Log Entry (app.js 582): `{ timestamp, type, message, lineNo }`.
The wall-clock `timestamp` is outside the embedding (it never influences
control flow); the remaining fields are modelled. -/
structure ErrorEntry where
  type : String
  message : String
  lineNo : Option Nat
deriving Repr, DecidableEq

/-- The local-buffer effect of `logError` (app.js 581-595): push the entry,
then if the buffer length exceeds 100, shift off the oldest entry. The
remote mirroring `fetch` is fire-and-forget and does not touch the buffer. -/
def logErrorLocal (errorLogs : List ErrorEntry) (message : String)
    (type : String) (lineNo : Option Nat) : List ErrorEntry :=
  let l := errorLogs ++ [{ type := type, message := message, lineNo := lineNo }]
  if l.length > 100 then l.drop 1 else l

/-- A Page record (app.js 399-410): id, name, content, per-line results,
variable context. -/
structure Page where
  id : Nat
  name : String
  content : String
  results : List String
  context : Context
deriving Repr, DecidableEq

/-- The mutable client state touched by the engine: the globals of app.js
(33-42) plus the overlay result cells and the two status indicators. The
debounce timer handle is modelled by the action the scheduler returns. -/
structure EngineState where
  editorValue : String
  previousLines : List String
  latestResults : List String
  display : List String
  pages : List Page
  currentPageId : Option Nat
  pageIdCounter : Nat
  errorLogs : List ErrorEntry
  statusText : String
  editorInfoText : String
deriving Repr, DecidableEq

/-- JS `arr.findIndex(p)`: first matching index, `-1` when none matches. -/
def jsFindIndex (p : Page → Bool) (l : List Page) : Int :=
  match l.findIdx? p with
  | some i => (i : Int)
  | none => -1

/-- JS `arr.splice(start, 1)`: remove one element at `start`, where a
negative `start` counts from the end (clamped at 0) and a `start` past the
end removes nothing. -/
def spliceRemoveOne (l : List Page) (i : Int) : List Page :=
  let start : Nat := if i < 0 then (l.length + i).toNat else i.toNat
  l.take start ++ l.drop (start + 1)

/-- Replace the first element satisfying `p` by its image under `f`:
the effect of JS `arr.find(p)` followed by in-place mutation of the found
object. -/
def updateFirst (p : Page → Bool) (f : Page → Page) : List Page → List Page
  | [] => []
  | x :: xs => if p x then f x :: xs else x :: updateFirst p f xs

/-- Model of `createPage` (app.js 399-410): allocate the next id, default the name to
`Page<id+1>` when the argument is absent or falsy (empty), start with empty
content, results `[]`, context `{}`, and append to the page list. Returns
the updated state and the new page. -/
def createPage (st : EngineState) (name : Option String) : EngineState × Page :=
  let id := st.pageIdCounter
  let page : Page :=
    { id := id
      name := jsOr (name.getD "") ("Page" ++ toString (id + 1))
      content := ""
      results := []
      context := [] }
  ({ st with pageIdCounter := id + 1, pages := st.pages ++ [page] }, page)

/-- Model of `saveCurrentPage` (app.js 558-564): find the page whose id equals
`currentPageId` and store the live editor value and a copy of
`latestResults` into it; no page found means no write. -/
def saveCurrentPage (st : EngineState) : EngineState :=
  { st with
    pages := updateFirst (fun p => some p.id == st.currentPageId)
      (fun p => { p with content := st.editorValue, results := st.latestResults })
      st.pages }

/-- Model of `switchToPage` (app.js 566-578): save the outgoing page, set
`currentPageId`, then if the incoming page exists load its content and
results into the editor state and re-render the overlay from them. -/
def switchToPage (st : EngineState) (pageId : Nat) : EngineState :=
  let st1 := saveCurrentPage st
  let st2 := { st1 with currentPageId := some pageId }
  match st2.pages.find? (fun p => p.id == pageId) with
  | some page =>
      { st2 with
        editorValue := page.content
        previousLines := jsSplitNewline page.content
        latestResults := page.results
        display := renderLines (jsSplitNewline page.content) page.results }
  | none => st2

/-- The close-button handler (app.js 462-473): refuse when only one page
exists; otherwise splice the page out (by `findIndex` on its id) and, if it
was the active page, switch to the first remaining page. -/
def closeTab (st : EngineState) (page : Page) : EngineState :=
  if st.pages.length > 1 then
    let idx := jsFindIndex (fun p => p.id == page.id) st.pages
    let pages' := spliceRemoveOne st.pages idx
    if st.currentPageId = some page.id then
      match pages'.head? with
      | some first => switchToPage { st with pages := pages' } first.id
      | none => { st with pages := pages' }
    else
      { st with pages := pages' }
  else st

/-- The `finish` closure of `startRenameTab` (app.js 420-426): trim the
input value; commit it as the new name only when `apply` is true and the
trimmed value is truthy (non-empty). -/
def finishRename (page : Page) (inputValue : String) (apply : Bool) : Page :=
  let value := jsTrim inputValue
  if apply && !(value == "") then { page with name := value } else page

/-- The action `scheduleEvaluation` takes on the debounce timer. -/
inductive ScheduleAction where
  /-- Returned early: the timer is untouched and no request will be issued. -/
  | idle : ScheduleAction
  /-- `clearTimeout` + `setTimeout`: the timer is restarted and, if it fires
  uninterrupted, `evaluateLines lines startIndex` runs. -/
  | restart (lines : List String) (startIndex : Nat) : ScheduleAction
deriving Repr, DecidableEq

/-- Model of `scheduleEvaluation` (app.js 140-155): split the editor value into
lines; if the change detector reports no divergence, return with no state
change and no timer action; otherwise commit the new lines, re-render, and
restart the debounce timer with the divergence index. -/
def scheduleEvaluation (st : EngineState) : EngineState × ScheduleAction :=
  let lines := jsSplitNewline st.editorValue
  let changedIndex := getChangedLineIndex lines st.previousLines
  if changedIndex = -1 then (st, .idle)
  else
    ({ st with
        previousLines := lines
        display := renderLines lines st.latestResults },
     .restart lines changedIndex.toNat)

/-- Truthiness of a JS array value: an array object is always truthy,
whatever its length (`page.results` is initialised to `[]` by `createPage`
and is only ever reassigned arrays, so the guard reads an array). -/
def jsArrayTruthy (_ : List String) : Bool := true

/-- The `allPagesContext` snapshot built by `evaluateLines` (app.js 97-102):
for each page, in display order, whose id differs from `currentPageId` and
whose `results` field is truthy, assign `page.name ↦ page.context || {}`. -/
def allPagesContextEntries : List Page → Option Nat → List (String × Context)
  | [], _ => []
  | page :: rest, currentPageId =>
      if some page.id != currentPageId && jsArrayTruthy page.results then
        (page.name, page.context) :: allPagesContextEntries rest currentPageId
      else
        allPagesContextEntries rest currentPageId

/-- The JSON body of an evaluator response, with every field optional as in
any parsed JSON object: `results`, `error`, `context` may each be absent. -/
structure EvalBody where
  results : Option (List String)
  error : Option String
  context : Option Context
deriving Repr, DecidableEq

/-- The outcome of the `fetch` in `evaluateLines`, as seen by the handler:
either the promise rejected (no response), or a response arrived with an
HTTP-ok flag and a body that `response.json()` either parsed or failed to
parse (carrying the message of the thrown error). -/
inductive EvalOutcome where
  | transportError (message : String) : EvalOutcome
  | response (ok : Bool) (body : Except String EvalBody) : EvalOutcome
deriving Repr

/-- The `data.results.forEach` scan of the success branch (app.js 122-126):
for each returned result, in order, that is truthy and contains `"Error:"`,
append an `evaluation` entry with 1-based line number
`idx + startIndex + 1`. -/
def logEvaluationErrors (errorLogs : List ErrorEntry) (results : List String)
    (startIndex : Nat) : List ErrorEntry :=
  results.enum.foldl
    (fun logs p =>
      if !(p.2 == "") && jsIncludes p.2 "Error:" then
        logErrorLocal logs p.2 "evaluation" (some (p.1 + startIndex + 1))
      else logs)
    errorLogs

/-- The message text of the TypeError raised by `data.results.forEach` when
`data.results` is absent (the wording of V8; the exact text is engine-specific
and no property here depends on it). -/
def forEachUndefinedMsg : String :=
  "Cannot read properties of undefined (reading 'forEach')"

/-- Model of `evaluateLines` (app.js 93-138), from the resolution of the `fetch`
onward, as a function of the fetch outcome.

* `response.json()` is awaited before `response.ok` is consulted, so a
  malformed body lands in the `catch` block whatever the HTTP status.
* Success (`response.ok`, body parsed): apply `data.results || []` via
  `updateResultsFrom`, store `data.context || {}` into the active page,
  set status `Ready`, then scan `data.results` for error markers — a scan
  that throws into the `catch` block when `data.results` is absent, after
  the display and context writes already happened.
* Failure (`!response.ok`, body parsed): status shows
  `data.error || "Evaluation failed"`, info shows `Error`, one `api` entry.
* Catch (transport failure or body parse failure): status
  `Evaluation failed`, info `Failed`, one `network` entry with the text
  `Network error: <message>`. -/
def handleEvalOutcome (st : EngineState) (lines : List String)
    (startIndex : Nat) (outcome : EvalOutcome) : EngineState :=
  match outcome with
  | .transportError message =>
      { st with
        statusText := "Evaluation failed"
        editorInfoText := "Failed"
        errorLogs := logErrorLocal st.errorLogs ("Network error: " ++ message)
          "network" none }
  | .response _ (.error message) =>
      { st with
        statusText := "Evaluation failed"
        editorInfoText := "Failed"
        errorLogs := logErrorLocal st.errorLogs ("Network error: " ++ message)
          "network" none }
  | .response true (.ok data) =>
      let applied :=
        { st with
          latestResults := data.results.getD []
          display := updateResultsFrom startIndex (data.results.getD []) st.display
          pages := updateFirst (fun p => some p.id == st.currentPageId)
            (fun p => { p with context := data.context.getD [] }) st.pages
          statusText := "Ready"
          editorInfoText := toString lines.length ++ " lines" }
      match data.results with
      | some rs =>
          { applied with
            errorLogs := logEvaluationErrors applied.errorLogs rs startIndex }
      | none =>
          { applied with
            statusText := "Evaluation failed"
            editorInfoText := "Failed"
            errorLogs := logErrorLocal applied.errorLogs
              ("Network error: " ++ forEachUndefinedMsg) "network" none }
  | .response false (.ok data) =>
      let errorMsg := jsOr (data.error.getD "") "Evaluation failed"
      { st with
        statusText := errorMsg
        editorInfoText := "Error"
        errorLogs := logErrorLocal st.errorLogs errorMsg "api" none }

/-- Model of `evaluateLines` end to end for a given fetch outcome: set the in-flight
indicators, build the cross-page context snapshot for the request body,
then handle the outcome. The request sent is
`{ lines, startIndex, context: allPagesContextEntries st.pages st.currentPageId }`. -/
def evaluateLines (st : EngineState) (lines : List String) (startIndex : Nat)
    (outcome : EvalOutcome) : EngineState :=
  let inflight :=
    { st with statusText := "Evaluating...", editorInfoText := "Evaluating..." }
  handleEvalOutcome inflight lines startIndex outcome

/-- The Result Projector as §4.5/§6 of the spec word it, for comparison
with `updateResultsFrom`: logical index `0` of the results array corresponds
to document line `startIndex`, so row `startIndex + j` shows `results[j]`. -/
def updateResultsFromSpecWording (startIndex : Nat) (results : List String)
    (rows : List String) : List String :=
  rows.mapIdx fun i cell =>
    if startIndex ≤ i ∧ i - startIndex < results.length then
      jsOr (results.getD (i - startIndex) "") ""
    else cell

/-! ## Supporting lemmas -/

/-- Divergence at an index forces that index below the scan bound
`max |C| |P|`. -/
lemma lt_max_of_getElem?_ne {C P : List String} {i : Nat}
    (h : C[i]? ≠ P[i]?) : i < max C.length P.length := by
  by_contra hge
  push_neg at hge
  rw [max_le_iff] at hge
  rw [List.getElem?_eq_none hge.1, List.getElem?_eq_none hge.2] at h
  exact h rfl

/-- The change detector reports the sentinel `-1` exactly when the current
and previous line arrays are equal. -/
lemma getChangedLineIndex_eq_neg_one_iff (C P : List String) :
    getChangedLineIndex C P = -1 ↔ P = C := by
  unfold getChangedLineIndex
  cases hf : (List.range (max C.length P.length)).findIdx?
      (fun i => C[i]? != P[i]?) with
  | some k =>
    simp only [hf]
    constructor
    · intro h; omega
    · rintro rfl
      rw [List.findIdx?_eq_some_iff_getElem] at hf
      obtain ⟨hk, hpk, -⟩ := hf
      simp at hpk
  | none =>
    simp only [hf]
    rw [List.findIdx?_eq_none_iff] at hf
    constructor
    · intro _
      apply List.ext_getElem?
      intro n
      by_cases hn : n < max C.length P.length
      · have := hf n (List.mem_range.mpr hn)
        simp at this
        exact this.symm
      · push_neg at hn
        rw [max_le_iff] at hn
        rw [List.getElem?_eq_none hn.1, List.getElem?_eq_none hn.2]
    · intro _; trivial

/-- The change detector returns `i` exactly when `i` is the least index at
which the arrays diverge (out-of-range reads treated as `undefined`). -/
lemma getChangedLineIndex_eq_coe_iff (C P : List String) (i : Nat) :
    getChangedLineIndex C P = (i : Int) ↔
      (C[i]? ≠ P[i]? ∧ ∀ j, j < i → C[j]? = P[j]?) := by
  unfold getChangedLineIndex
  cases hf : (List.range (max C.length P.length)).findIdx?
      (fun i => C[i]? != P[i]?) with
  | some k =>
    simp only [hf]
    rw [List.findIdx?_eq_some_iff_getElem] at hf
    obtain ⟨hk, hpk, hmin⟩ := hf
    rw [List.getElem_range] at hpk
    constructor
    · intro h
      have hik : k = i := by exact_mod_cast h
      subst hik
      refine ⟨by simpa using hpk, fun j hj => ?_⟩
      have := hmin j hj
      rw [List.getElem_range] at this
      simpa using this
    · rintro ⟨hne, hall⟩
      have hkk : ¬ k < i := fun hlt => by
        have := hall k hlt
        simp [this] at hpk
      have hik : ¬ i < k := fun hlt => by
        have := hmin i hlt
        rw [List.getElem_range] at this
        simp at this
        exact hne this
      have hke : k = i := by omega
      subst hke
      rfl
  | none =>
    simp only [hf]
    rw [List.findIdx?_eq_none_iff] at hf
    constructor
    · intro h; omega
    · rintro ⟨hne, -⟩
      have hi : i < max C.length P.length := lt_max_of_getElem?_ne hne
      have := hf i (List.mem_range.mpr hi)
      simp at this
      exact absurd this hne

/-! ## Claims -/

/-- C1 (counterexample): with `startIndex = 1` and a two-element results
array, `updateResultsFrom` writes `results[1]` into row `1` and leaves row
`2` alone, whereas the claimed offset mapping would write `results[0]` into
row `1` and `results[1]` into row `2`; the two projections disagree. -/
theorem updateResultsFrom_not_offset_counterexample :
    updateResultsFrom 1 ["a", "b"] ["x", "y", "z"] = ["x", "b", "z"] ∧
    updateResultsFromSpecWording 1 ["a", "b"] ["x", "y", "z"] = ["x", "a", "b"] ∧
    updateResultsFrom 1 ["a", "b"] ["x", "y", "z"] ≠
      updateResultsFromSpecWording 1 ["a", "b"] ["x", "y", "z"] := by
  refine ⟨by decide, by decide, by decide⟩

/-- C1 (amended): the Result Projector indexes the results array by
absolute document line, not relative to `startIndex`: row `i` is set to
`results[i] || ""` exactly when `startIndex ≤ i < |results|`, and every
other row keeps its previous content. -/
theorem updateResultsFrom_absolute_indexing (startIndex : Nat)
    (results rows : List String) (i : Nat) :
    (updateResultsFrom startIndex results rows)[i]? =
      (rows[i]?).map fun cell =>
        if startIndex ≤ i ∧ i < results.length then jsOr (results.getD i "") ""
        else cell := by
  unfold updateResultsFrom
  rw [List.getElem?_mapIdx]

/-- C2: the change detector returns the smallest index at which the current
and previous line arrays diverge (a missing index counts as divergent), and
the sentinel `-1` exactly when the arrays are equal. -/
theorem getChangedLineIndex_min_divergence (P C : List String) :
    (getChangedLineIndex C P = -1 ↔ P = C) ∧
    (∀ i : Nat, getChangedLineIndex C P = (i : Int) ↔
      (C[i]? ≠ P[i]? ∧ ∀ j, j < i → C[j]? = P[j]?)) :=
  ⟨getChangedLineIndex_eq_neg_one_iff C P,
   fun i => getChangedLineIndex_eq_coe_iff C P i⟩

/-- C2 (witness): on `P = ["a"]`, `C = ["a","b"]` the detector returns `1`,
and the theorem instantiates: index 1 diverges and index 0 agrees. -/
theorem getChangedLineIndex_min_divergence_witness :
    (["a", "b"] : List String)[1]? ≠ (["a"] : List String)[1]? ∧
    ∀ j, j < 1 → (["a", "b"] : List String)[j]? = (["a"] : List String)[j]? :=
  ((getChangedLineIndex_min_divergence ["a"] ["a", "b"]).2 1).mp (by decide)

/-- C3: applying a results array at `startIndex` never changes the
displayed result cell of any row strictly below `startIndex`, whatever that
cell previously held. -/
theorem updateResultsFrom_frame (startIndex : Nat) (results rows : List String)
    (i : Nat) (h : i < startIndex) :
    (updateResultsFrom startIndex results rows)[i]? = rows[i]? := by
  unfold updateResultsFrom
  rw [List.getElem?_mapIdx]
  cases rows[i]? with
  | none => rfl
  | some cell =>
    have : ¬ (startIndex ≤ i ∧ i < results.length) := fun hc => by omega
    simp [this]

/-- C3 (witness): sentinel content below `startIndex = 2` survives an
application of results there. -/
theorem updateResultsFrom_frame_witness :
    (updateResultsFrom 2 ["r0", "r1", "r2"] ["s0", "s1", "old"])[1]? =
      (["s0", "s1", "old"] : List String)[1]? :=
  updateResultsFrom_frame 2 ["r0", "r1", "r2"] ["s0", "s1", "old"] 1 (by decide)

/-- C5: when the current line split of the editor equals the committed
`previousLines`, `scheduleEvaluation` is a no-op: the state is returned
unchanged and the timer action is `idle` (no restart, no request). -/
theorem scheduleEvaluation_noop (st : EngineState)
    (h : jsSplitNewline st.editorValue = st.previousLines) :
    scheduleEvaluation st = (st, ScheduleAction.idle) := by
  unfold scheduleEvaluation
  have hidx : getChangedLineIndex (jsSplitNewline st.editorValue)
      st.previousLines = -1 :=
    (getChangedLineIndex_eq_neg_one_iff _ _).mpr h.symm
  simp [hidx]

/-- C5 (witness): a concrete state whose editor value re-splits to its
committed lines schedules nothing. -/
theorem scheduleEvaluation_noop_witness :
    scheduleEvaluation
      { editorValue := "x = 2\ny"
        previousLines := ["x = 2", "y"]
        latestResults := ["", "Error: y undefined"]
        display := ["", "Error: y undefined"]
        pages := [{ id := 0, name := "Main", content := "x = 2\ny",
                    results := ["", "Error: y undefined"], context := [("x", "2")] }]
        currentPageId := some 0
        pageIdCounter := 1
        errorLogs := []
        statusText := "Ready"
        editorInfoText := "2 lines" } =
      ({ editorValue := "x = 2\ny"
         previousLines := ["x = 2", "y"]
         latestResults := ["", "Error: y undefined"]
         display := ["", "Error: y undefined"]
         pages := [{ id := 0, name := "Main", content := "x = 2\ny",
                     results := ["", "Error: y undefined"], context := [("x", "2")] }]
         currentPageId := some 0
         pageIdCounter := 1
         errorLogs := []
         statusText := "Ready"
         editorInfoText := "2 lines" }, ScheduleAction.idle) :=
  scheduleEvaluation_noop _ (by decide)

/-- C4 (counterexample): a page freshly created by `createPage` — with no
completed evaluation round, `results = []`, `context = {}` — still appears
in the cross-page snapshot, because the guard `page.results` tests an array
for truthiness and a JS array is always truthy. The claim demands that the
snapshot for the still-active page `Main` be empty. -/
theorem allPagesContext_includes_fresh_page_counterexample :
    allPagesContextEntries
      ((createPage
        { editorValue := "x = 2"
          previousLines := ["x = 2"]
          latestResults := ["2"]
          display := ["2"]
          pages := [{ id := 0, name := "Main", content := "x = 2",
                      results := ["2"], context := [("x", "2")] }]
          currentPageId := some 0
          pageIdCounter := 1
          errorLogs := []
          statusText := "Ready"
          editorInfoText := "1 lines" } none).1).pages (some 0) =
      [("Page2", [])] ∧
    [("Page2", ([] : Context))] ≠ ([] : List (String × Context)) := by
  refine ⟨by decide, by decide⟩

/-- C4 (amended): the snapshot contains exactly the pages other than the
active one — every one of them, evaluated or not — each contributing its
name and stored context, in display order; the `page.results` conjunct of
the guard never excludes a page. -/
theorem allPagesContext_all_other_pages (pages : List Page)
    (currentPageId : Option Nat) :
    allPagesContextEntries pages currentPageId =
      (pages.filter fun p => some p.id != currentPageId).map
        fun p => (p.name, p.context) := by
  induction pages with
  | nil => rfl
  | cons p ps ih =>
    unfold allPagesContextEntries
    rw [List.filter_cons]
    by_cases h : (some p.id != currentPageId) = true
    · simp [h, jsArrayTruthy, ih]
    · simp only [Bool.not_eq_true] at h
      simp [h, jsArrayTruthy, ih]

/-- C7: the local error log is a capped ring buffer: an append always puts
the new entry last; below the cap it is a plain append; at the cap of 100
the oldest entry is evicted, leaving exactly 100 entries with the newest
retained. -/
theorem logError_ring_buffer (logs : List ErrorEntry) (m ty : String)
    (ln : Option Nat) (h : logs.length ≤ 100) :
    (logErrorLocal logs m ty ln).getLast? = some ⟨ty, m, ln⟩ ∧
    (logErrorLocal logs m ty ln).length ≤ 100 ∧
    (logs.length < 100 → logErrorLocal logs m ty ln = logs ++ [⟨ty, m, ln⟩]) ∧
    (logs.length = 100 →
      logErrorLocal logs m ty ln = logs.drop 1 ++ [⟨ty, m, ln⟩] ∧
      (logErrorLocal logs m ty ln).length = 100) := by
  have hdrop : logs ≠ [] →
      (logs ++ [(⟨ty, m, ln⟩ : ErrorEntry)]).drop 1 =
        logs.drop 1 ++ [(⟨ty, m, ln⟩ : ErrorEntry)] := by
    cases logs with
    | nil => intro hne; exact absurd rfl hne
    | cons a l => intro _; rfl
  unfold logErrorLocal
  by_cases hc : logs.length + 1 > 100
  · have h100 : logs.length = 100 := by omega
    have hne : logs ≠ [] := by
      cases logs with
      | nil => simp at h100
      | cons a l => exact List.cons_ne_nil a l
    simp only [List.length_append, List.length_cons, List.length_nil,
      Nat.zero_add, hc, if_pos]
    rw [hdrop hne]
    refine ⟨List.getLast?_concat _, ?_, ?_, ?_⟩
    · simp [h100]
    · intro hlt; omega
    · intro _
      refine ⟨rfl, ?_⟩
      simp [h100]
  · have hle : ¬ ((logs ++ [(⟨ty, m, ln⟩ : ErrorEntry)]).length > 100) := by
      simp only [List.length_append, List.length_cons, List.length_nil,
        Nat.zero_add]
      omega
    rw [if_neg hle]
    refine ⟨List.getLast?_concat _, ?_, fun _ => rfl,
      fun h100 => absurd h100 (by omega)⟩
    simp only [List.length_append, List.length_cons, List.length_nil,
      Nat.zero_add]
    omega

/-- C7 (witness): appending a 101st entry to a full buffer of 100 entries
keeps the length at 100 and the new entry last. -/
theorem logError_ring_buffer_witness :
    (logErrorLocal (List.replicate 100 ⟨"api", "old", none⟩) "new" "network"
        none).getLast? = some ⟨"network", "new", none⟩ ∧
    (logErrorLocal (List.replicate 100 ⟨"api", "old", none⟩) "new" "network"
        none).length ≤ 100 :=
  ⟨(logError_ring_buffer (List.replicate 100 ⟨"api", "old", none⟩) "new"
      "network" none (by simp)).1,
   (logError_ring_buffer (List.replicate 100 ⟨"api", "old", none⟩) "new"
      "network" none (by simp)).2.1⟩

/-- C10: committing a rename whose input trims to the empty string leaves
the page name unchanged; committing a non-empty trimmed value installs the
trimmed value as the new name; an Escape-cancelled rename (`apply = false`)
changes nothing. -/
theorem finishRename_commit (page : Page) (input : String) :
    (finishRename page input false = page) ∧
    (jsTrim input = "" → finishRename page input true = page) ∧
    (jsTrim input ≠ "" →
      finishRename page input true = { page with name := jsTrim input }) := by
  unfold finishRename
  refine ⟨rfl, fun he => ?_, fun hne => ?_⟩
  · simp [he]
  · simp [hne]

/-- C10 (witness): an all-whitespace rename is dropped, a padded rename is
committed trimmed, and Escape cancels. -/
theorem finishRename_commit_witness :
    (finishRename { id := 0, name := "Main", content := "", results := [], context := [] } "   " true =
      { id := 0, name := "Main", content := "", results := [], context := [] }) ∧
    (finishRename { id := 0, name := "Main", content := "", results := [], context := [] } "  Notes  " true =
      { id := 0, name := "Notes", content := "", results := [], context := [] }) ∧
    (finishRename { id := 0, name := "Main", content := "", results := [], context := [] } "  Notes  " false =
      { id := 0, name := "Main", content := "", results := [], context := [] }) :=
  ⟨(finishRename_commit _ "   ").2.1 (by decide),
   by
    have h := (finishRename_commit
      { id := 0, name := "Main", content := "", results := [], context := [] }
      "  Notes  ").2.2 (by decide)
    rw [h]
    decide,
   (finishRename_commit _ "  Notes  ").1⟩

/-- After `switchToPage` the active page id is the requested one, whether
or not the requested page exists. -/
lemma switchToPage_currentPageId (st : EngineState) (pageId : Nat) :
    (switchToPage st pageId).currentPageId = some pageId := by
  unfold switchToPage
  cases h : ((saveCurrentPage st).pages.find? (fun p => p.id == pageId)) with
  | some p => simp [h]
  | none => simp [h]

/-- C9 (counterexample): a round whose response has a non-success status but
a body that is not valid JSON — `response.json()` is awaited before
`response.ok` is consulted — appends a `network` entry, not the `api` entry
the claim requires for every non-success status. -/
theorem evaluateLines_non2xx_malformed_counterexample :
    (evaluateLines
      { editorValue := "x"
        previousLines := ["x"]
        latestResults := [""]
        display := [""]
        pages := []
        currentPageId := none
        pageIdCounter := 0
        errorLogs := []
        statusText := "Ready"
        editorInfoText := "1 lines" }
      ["x"] 0
      (.response false (.error "Unexpected token <"))).errorLogs =
      [{ type := "network", message := "Network error: Unexpected token <",
         lineNo := none }] ∧
    ("network" : String) ≠ "api" := by
  refine ⟨by decide, by decide⟩

/-- C9 (amended): a non-success status whose body parses as JSON leaves the
display, the latest results and every page record (hence the stored context
of the active page) unchanged, shows `data.error || "Evaluation failed"` in the status
indicator with `Error` in the info indicator, and appends exactly one
`api`-tagged entry; a transport failure (no response) or a body that fails
to parse leaves them unchanged likewise and appends exactly one
`network`-tagged entry carrying `Network error: ` plus the underlying error
text, with the status indicator reflecting failure. -/
theorem evaluateLines_failure_handling (st : EngineState) (lines : List String)
    (startIndex : Nat) :
    (∀ b : EvalBody,
      (evaluateLines st lines startIndex (.response false (.ok b))).display
          = st.display ∧
      (evaluateLines st lines startIndex (.response false (.ok b))).latestResults
          = st.latestResults ∧
      (evaluateLines st lines startIndex (.response false (.ok b))).pages
          = st.pages ∧
      (evaluateLines st lines startIndex (.response false (.ok b))).statusText
          = jsOr (b.error.getD "") "Evaluation failed" ∧
      (evaluateLines st lines startIndex (.response false (.ok b))).editorInfoText
          = "Error" ∧
      (evaluateLines st lines startIndex (.response false (.ok b))).errorLogs
          = logErrorLocal st.errorLogs (jsOr (b.error.getD "") "Evaluation failed")
              "api" none) ∧
    (∀ message : String,
      (evaluateLines st lines startIndex (.transportError message)).display
          = st.display ∧
      (evaluateLines st lines startIndex (.transportError message)).latestResults
          = st.latestResults ∧
      (evaluateLines st lines startIndex (.transportError message)).pages
          = st.pages ∧
      (evaluateLines st lines startIndex (.transportError message)).statusText
          = "Evaluation failed" ∧
      (evaluateLines st lines startIndex (.transportError message)).errorLogs
          = logErrorLocal st.errorLogs ("Network error: " ++ message)
              "network" none) ∧
    (∀ (ok : Bool) (message : String),
      (evaluateLines st lines startIndex (.response ok (.error message))).display
          = st.display ∧
      (evaluateLines st lines startIndex (.response ok (.error message))).pages
          = st.pages ∧
      (evaluateLines st lines startIndex (.response ok (.error message))).errorLogs
          = logErrorLocal st.errorLogs ("Network error: " ++ message)
              "network" none) :=
  ⟨fun _ => ⟨rfl, rfl, rfl, rfl, rfl, rfl⟩,
   fun _ => ⟨rfl, rfl, rfl, rfl, rfl⟩,
   fun ok _ => by cases ok <;> exact ⟨rfl, rfl, rfl⟩⟩

/-- C6: page lifecycle under the close button. Closing the only page is
refused; closing a non-active page removes it (splicing at its `findIndex`)
and keeps `currentPageId`; closing the active page activates the first page
remaining after the splice, in display order. -/
theorem closeTab_lifecycle (st : EngineState) (page : Page)
    (hmem : page ∈ st.pages) :
    (st.pages.length = 1 → closeTab st page = st) ∧
    (1 < st.pages.length → st.currentPageId ≠ some page.id →
      (closeTab st page).currentPageId = st.currentPageId ∧
      (closeTab st page).pages =
        spliceRemoveOne st.pages
          (jsFindIndex (fun p => p.id == page.id) st.pages)) ∧
    (1 < st.pages.length → st.currentPageId = some page.id →
      (closeTab st page).currentPageId =
        ((spliceRemoveOne st.pages
          (jsFindIndex (fun p => p.id == page.id) st.pages)).head?).map
            Page.id) := by
  have hfind : st.pages.findIdx? (fun p => p.id == page.id) =
      some (st.pages.findIdx (fun p => p.id == page.id)) :=
    List.findIdx?_eq_some_of_exists ⟨page, hmem, by simp⟩
  have hlt : st.pages.findIdx (fun p => p.id == page.id) < st.pages.length :=
    (List.findIdx?_eq_some_iff_findIdx_eq.mp hfind).1
  refine ⟨fun h1 => ?_, fun hgt hne => ?_, fun hgt hcur => ?_⟩
  · unfold closeTab
    rw [if_neg (by omega)]
  · unfold closeTab
    rw [if_pos (by omega), if_neg hne]
    exact ⟨rfl, rfl⟩
  · have hlen : (spliceRemoveOne st.pages
        (jsFindIndex (fun p => p.id == page.id) st.pages)).length =
          st.pages.length - 1 := by
      unfold spliceRemoveOne jsFindIndex
      rw [hfind]
      have : ¬ ((st.pages.findIdx (fun p => p.id == page.id) : Int) < 0) := by
        omega
      rw [if_neg this]
      simp only [Int.toNat_ofNat, List.length_append, List.length_take,
        List.length_drop]
      omega
    obtain ⟨first, hfirst⟩ : ∃ first,
        (spliceRemoveOne st.pages
          (jsFindIndex (fun p => p.id == page.id) st.pages)).head? =
            some first := by
      cases hh : (spliceRemoveOne st.pages
          (jsFindIndex (fun p => p.id == page.id) st.pages)).head? with
      | some f => exact ⟨f, rfl⟩
      | none =>
        rw [List.head?_eq_none_iff] at hh
        rw [hh] at hlen
        simp at hlen
        omega
    unfold closeTab
    rw [if_pos (by omega), if_pos hcur, hfirst]
    simp only [Option.map_some']
    exact switchToPage_currentPageId _ _

/-- C6 (witness): in a concrete three-page state, closing the lone page of
a one-page state is refused, closing a non-active page keeps the active id,
and closing the active page activates the first remaining page. -/
theorem closeTab_lifecycle_witness :
    (closeTab
      { editorValue := ""
        previousLines := [""]
        latestResults := []
        display := []
        pages := [{ id := 0, name := "Main", content := "", results := [], context := [] }]
        currentPageId := some 0
        pageIdCounter := 1
        errorLogs := []
        statusText := "Ready"
        editorInfoText := "" }
      { id := 0, name := "Main", content := "", results := [], context := [] } =
      { editorValue := ""
        previousLines := [""]
        latestResults := []
        display := []
        pages := [{ id := 0, name := "Main", content := "", results := [], context := [] }]
        currentPageId := some 0
        pageIdCounter := 1
        errorLogs := []
        statusText := "Ready"
        editorInfoText := "" }) ∧
    (closeTab
      { editorValue := ""
        previousLines := [""]
        latestResults := []
        display := []
        pages := [{ id := 0, name := "Main", content := "", results := [], context := [] },
                  { id := 1, name := "Page2", content := "", results := [], context := [] }]
        currentPageId := some 0
        pageIdCounter := 2
        errorLogs := []
        statusText := "Ready"
        editorInfoText := "" }
      { id := 1, name := "Page2", content := "", results := [], context := [] }).currentPageId
        = some 0 ∧
    (closeTab
      { editorValue := ""
        previousLines := [""]
        latestResults := []
        display := []
        pages := [{ id := 0, name := "Main", content := "", results := [], context := [] },
                  { id := 1, name := "Page2", content := "", results := [], context := [] }]
        currentPageId := some 0
        pageIdCounter := 2
        errorLogs := []
        statusText := "Ready"
        editorInfoText := "" }
      { id := 0, name := "Main", content := "", results := [], context := [] }).currentPageId
        = some 1 := by
  refine ⟨(closeTab_lifecycle _ _ (by decide)).1 (by decide), ?_, ?_⟩
  · exact ((closeTab_lifecycle _ _ (by decide)).2.1 (by decide) (by decide)).1.trans
      (by decide)
  · exact ((closeTab_lifecycle _ _ (by decide)).2.2 (by decide) (by decide)).trans
      (by decide)


/-- With pairwise-distinct page ids, `find?` with a predicate that holds
exactly on `a.id` returns `a` itself. -/
lemma find?_of_nodup_ids (l : List Page) (a : Page) (pf : Page → Bool)
    (hpf : ∀ x, pf x = true ↔ x.id = a.id) (hmem : a ∈ l)
    (hnodup : (l.map Page.id).Nodup) : l.find? pf = some a := by
  induction l with
  | nil => cases hmem
  | cons x xs ih =>
    simp only [List.map_cons, List.nodup_cons] at hnodup
    rcases List.mem_cons.mp hmem with hax | hmem'
    · rw [List.find?_cons_of_pos _ ((hpf x).mpr (by rw [hax])), hax]
    · have hxb : pf x = false := by
        rw [Bool.eq_false_iff]
        intro hx
        have hxa := (hpf x).mp hx
        exact hnodup.1 (hxa ▸ List.mem_map_of_mem Page.id hmem')
      rw [List.find?_cons_of_neg _ (by simp [hxb])]
      exact ih hmem' hnodup.2

/-- Running `find?` after `updateFirst`, looking for the updated element: if `a` is
the first `pu`-match, `pf` holds on `f a`, and `pf` fails wherever `pu`
fails, then the search returns `f a`. -/
lemma find?_updateFirst_self (pu pf : Page → Bool) (f : Page → Page)
    (l : List Page) (a : Page) (hfind : l.find? pu = some a)
    (hpf_fa : pf (f a) = true) (himp : ∀ x, pu x = false → pf x = false) :
    (updateFirst pu f l).find? pf = some (f a) := by
  induction l with
  | nil => simp at hfind
  | cons x xs ih =>
    unfold updateFirst
    by_cases hx : pu x = true
    · rw [if_pos hx]
      rw [List.find?_cons_of_pos _ hx] at hfind
      injection hfind with hxa
      subst hxa
      exact List.find?_cons_of_pos _ hpf_fa
    · have hx' : pu x = false := by simpa using hx
      rw [if_neg hx]
      rw [List.find?_cons_of_neg _ (by simp [hx'])] at hfind
      rw [List.find?_cons_of_neg _ (by simp [himp x hx'])]
      exact ih hfind

/-- Running `find?` after `updateFirst`, looking elsewhere: if `pf` fails on every
`pu`-match before and after the update, the search is unaffected. -/
lemma find?_updateFirst_of_disjoint (pu pf : Page → Bool) (f : Page → Page)
    (l : List Page)
    (hdisj : ∀ x, pu x = true → (pf x = false ∧ pf (f x) = false)) :
    (updateFirst pu f l).find? pf = l.find? pf := by
  induction l with
  | nil => rfl
  | cons x xs ih =>
    unfold updateFirst
    by_cases hx : pu x = true
    · rw [if_pos hx]
      rw [List.find?_cons_of_neg _ (by simp [(hdisj x hx).2])]
      rw [List.find?_cons_of_neg _ (by simp [(hdisj x hx).1])]
    · rw [if_neg hx]
      cases hpf : pf x with
      | true =>
        rw [List.find?_cons_of_pos _ hpf, List.find?_cons_of_pos _ hpf]
      | false =>
        rw [List.find?_cons_of_neg _ (by simp [hpf]),
          List.find?_cons_of_neg _ (by simp [hpf])]
        exact ih

/-- C8: switching from the active page `a` to another page `b` persists the
live editor content and results into the record of `a` before activating `b`
and loading the stored content and results of `b` into the editor state. -/
theorem switchToPage_persists_outgoing (st : EngineState) (a b : Page)
    (hmem_a : a ∈ st.pages) (hcur : st.currentPageId = some a.id)
    (hmem_b : b ∈ st.pages) (hab : a.id ≠ b.id)
    (hnodup : (st.pages.map Page.id).Nodup) :
    (switchToPage st b.id).pages.find? (fun p => p.id == a.id) =
      some { a with content := st.editorValue, results := st.latestResults } ∧
    (switchToPage st b.id).currentPageId = some b.id ∧
    (switchToPage st b.id).editorValue = b.content ∧
    (switchToPage st b.id).latestResults = b.results ∧
    (switchToPage st b.id).previousLines = jsSplitNewline b.content := by
  have hfind_a : st.pages.find? (fun p => some p.id == st.currentPageId) =
      some a :=
    find?_of_nodup_ids st.pages a _ (fun x => by rw [hcur]; simp) hmem_a hnodup
  have hdisj : ∀ x : Page, (some x.id == st.currentPageId) = true →
      ((x.id == b.id) = false ∧
        (({ x with content := st.editorValue, results := st.latestResults } : Page).id == b.id) = false) := by
    intro x hx
    rw [hcur] at hx
    have hxa : x.id = a.id := by simpa using hx
    have hxb : (x.id == b.id) = false := by
      rw [beq_eq_false_iff_ne]
      intro he
      exact hab (hxa.symm.trans he)
    exact ⟨hxb, hxb⟩
  have hfind_b :
      (updateFirst (fun p => some p.id == st.currentPageId)
        (fun p => { p with content := st.editorValue, results := st.latestResults })
        st.pages).find? (fun p => p.id == b.id) = some b := by
    rw [find?_updateFirst_of_disjoint _ _ _ _ hdisj]
    exact find?_of_nodup_ids st.pages b _ (fun x => by simp) hmem_b hnodup
  have hfind_a' :
      (updateFirst (fun p => some p.id == st.currentPageId)
        (fun p => { p with content := st.editorValue, results := st.latestResults })
        st.pages).find? (fun p => p.id == a.id) =
        some { a with content := st.editorValue, results := st.latestResults } := by
    refine find?_updateFirst_self _ _ _ _ a hfind_a (by simp) ?_
    intro x hx
    rw [hcur] at hx
    rw [beq_eq_false_iff_ne] at hx ⊢
    intro he
    exact hx (by rw [he])
  simp only [switchToPage, saveCurrentPage, hfind_b]
  refine ⟨hfind_a', ?_, ?_, ?_, ?_⟩ <;> trivial

/-- C8 (witness): in a concrete two-page state with live edits, switching
from `Main` (id 0) to `Notes` (id 1) stores the live editor value and
results into the record of `Main` and loads the stored state of `Notes`. -/
theorem switchToPage_persists_outgoing_witness :
    ((switchToPage
      { editorValue := "x = 9"
        previousLines := ["x = 9"]
        latestResults := ["9"]
        display := ["9"]
        pages := [{ id := 0, name := "Main", content := "x = 1", results := ["1"], context := [] },
                  { id := 1, name := "Notes", content := "y = 2", results := [""], context := [] }]
        currentPageId := some 0
        pageIdCounter := 2
        errorLogs := []
        statusText := "Ready"
        editorInfoText := "1 lines" } 1).pages.find? (fun p => p.id == 0) =
      some { id := 0, name := "Main", content := "x = 9", results := ["9"], context := [] }) ∧
    (switchToPage
      { editorValue := "x = 9"
        previousLines := ["x = 9"]
        latestResults := ["9"]
        display := ["9"]
        pages := [{ id := 0, name := "Main", content := "x = 1", results := ["1"], context := [] },
                  { id := 1, name := "Notes", content := "y = 2", results := [""], context := [] }]
        currentPageId := some 0
        pageIdCounter := 2
        errorLogs := []
        statusText := "Ready"
        editorInfoText := "1 lines" } 1).editorValue = "y = 2" := by
  have h := switchToPage_persists_outgoing
    { editorValue := "x = 9"
      previousLines := ["x = 9"]
      latestResults := ["9"]
      display := ["9"]
      pages := [{ id := 0, name := "Main", content := "x = 1", results := ["1"], context := [] },
                { id := 1, name := "Notes", content := "y = 2", results := [""], context := [] }]
      currentPageId := some 0
      pageIdCounter := 2
      errorLogs := []
      statusText := "Ready"
      editorInfoText := "1 lines" }
    { id := 0, name := "Main", content := "x = 1", results := ["1"], context := [] }
    { id := 1, name := "Notes", content := "y = 2", results := [""], context := [] }
    (by decide) (by decide) (by decide) (by decide) (by decide)
  exact ⟨h.1, h.2.2.1⟩

end PyCalcWeb
